import Mathlib

/-!
Verification development for the pizzatg shared-expense ledger.

Shallow embedding of the Python domain layer (src/domain/models.py,
src/domain/services.py) and of the in-memory ledger store
(src/persistence/memory_repo.py).

Conventions of the embedding:
* Python `Decimal` values are modelled as exact rationals (`ℚ`).  The one
  Decimal operation the code uses beyond field arithmetic is
  `quantize(Decimal("0.01"), ROUND_HALF_UP)` after a division; for the
  magnitudes this program handles (ruble amounts below the 10^9 ceiling,
  participant counts) the 28-significant-digit Decimal context never
  perturbs the cent-level rounding, so the pipeline is modelled as exact
  rational division followed by half-up rounding to cents.
* `datetime.now()` is modelled by threading an explicit `now : Nat`
  timestamp into every operation that constructs records.
* The Python dictionary `InMemoryRepository._debts`, keyed by
  `(debtor, creditor, chat_id)`, is modelled as an association list of
  `Debt` records keyed by their own `(debtor, creditor, chat_id)` fields
  (the repository always derives the key from those fields).  Insertion
  order is preserved exactly as a Python dict does: update-in-place for a
  present key, append for a fresh key.
* The `Debt` record set carries the fields the whole source tree agrees
  on: `src/domain/services.py` reads and writes `description`, and both
  persistence implementations key on `chat_id` (with SQL defaults
  `description TEXT NOT NULL DEFAULT ''`, `chat_id INTEGER NOT NULL
  DEFAULT 0`).  `src/domain/models.py` declares only the five fields
  `debtor, creditor, amount, created_at, updated_at`; construction sites
  that omit `description`/`chat_id` (as `Debt.reduce` does) therefore
  fall back to the defaults `""` and `0`, which the embedding writes out
  explicitly.
* Exceptions are modelled with `Except`; stateful services thread the
  store explicitly and return `State × Except ε α`, so a raise performed
  before any repository write leaves the returned state equal to the
  input state exactly as the Python control flow does.
-/

namespace Pizza

/-! ### Money arithmetic (src/domain/models.py) -/

/-- Python `MAX_AMOUNT = Decimal("1_000_000_000")` — the order-amount ceiling. -/
def MAX_AMOUNT : ℚ := 1000000000

/-- Python `MIN_PARTICIPANTS = 2`. -/
def MIN_PARTICIPANTS : Nat := 2

/-- Python `Decimal.quantize(Decimal("0.01"), rounding=ROUND_HALF_UP)`: round to
two decimal places, ties away from zero. -/
def roundHalfUp2 (q : ℚ) : ℚ :=
  if 0 ≤ q then (⌊q * 100 + 1 / 2⌋ : ℚ) / 100
  else -((⌊-(q * 100) + 1 / 2⌋ : ℚ) / 100)

/-- Python `Order.calculate_per_person`: `share = amount / num_participants`
rounded half-up to two decimals.  The source raises `ValueError` for
`num_participants <= 0`; every caller has already validated
`num_participants ≥ 2`, and claims about this function carry that
hypothesis. -/
def calculate_per_person (amount : ℚ) (num_participants : Nat) : ℚ :=
  roundHalfUp2 (amount / num_participants)

/-! ### Data model (src/domain/models.py, field set per whole source tree) -/

/-- A shared-expense order (dataclass `Order`).  `id` is an uninterpreted token
(a shortened `uuid4` in the source) irrelevant to the ledger algebra. -/
structure Order where
  id : String
  description : String
  amount : ℚ
  payer : String
  participants : List String
  per_person_amount : ℚ
  created_at : Nat
deriving DecidableEq

/-- A directed debt edge (dataclass `Debt`).  `description` and `chat_id`
carry the dataclass defaults `""` and `0` when a construction site omits
them. -/
structure Debt where
  debtor : String
  creditor : String
  amount : ℚ
  description : String
  chat_id : Int
  created_at : Nat
  updated_at : Nat
deriving DecidableEq

/-- Python `Debt.is_settled`: `amount <= Decimal("0")`. -/
def Debt.is_settled (d : Debt) : Bool :=
  decide (d.amount ≤ 0)

/-- Python `Debt.reduce`: build a new record with the payment subtracted.  The
source forwards only `debtor`, `creditor`, `amount`, `created_at` and
sets `updated_at = datetime.now()`; `description` and `chat_id` are not
forwarded and fall back to the dataclass defaults `""` and `0`. -/
def Debt.reduce (d : Debt) (payment_amount : ℚ) (now : Nat) : Debt :=
  { debtor := d.debtor
    creditor := d.creditor
    amount := d.amount - payment_amount
    description := ""
    chat_id := 0
    created_at := d.created_at
    updated_at := now }

/-- An immutable payment record (dataclass `Payment`). -/
structure Payment where
  id : String
  debtor : String
  creditor : String
  amount : ℚ
  created_at : Nat
deriving DecidableEq

/-! ### Ledger store (src/persistence/memory_repo.py) -/

/-- Key test used by every debt lookup: the dictionary key is
`(debtor, creditor, chat_id)`. -/
def matchesKey (e : Debt) (debtor creditor : String) (chat_id : Int) : Bool :=
  e.debtor == debtor && e.creditor == creditor && e.chat_id == chat_id

/-- Two debts with the same dictionary key. -/
def sameKey (e d : Debt) : Bool :=
  matchesKey e d.debtor d.creditor d.chat_id

/-- Python `InMemoryRepository.get_debt(debtor, creditor, chat_id)`. -/
def get_debt (debts : List Debt) (debtor creditor : String) (chat_id : Int) : Option Debt :=
  debts.find? (fun e => matchesKey e debtor creditor chat_id)

/-- Python `InMemoryRepository.save_debt`: dict upsert keyed on
`(debtor, creditor, chat_id)` — replace in place when the key is present,
append otherwise. -/
def save_debt : List Debt → Debt → List Debt
  | [], d => [d]
  | e :: rest, d => if sameKey e d then d :: rest else e :: save_debt rest d

/-- Python `InMemoryRepository.delete_debt`: remove the entry with the given key
if present. -/
def delete_debt : List Debt → String → String → Int → List Debt
  | [], _, _, _ => []
  | e :: rest, debtor, creditor, chat_id =>
      if matchesKey e debtor creditor chat_id then rest
      else e :: delete_debt rest debtor creditor chat_id

/-- Python `InMemoryRepository.get_all_debts(chat_id)`: every debt stored under
the given chat scope. -/
def get_all_debts (debts : List Debt) (chat_id : Int) : List Debt :=
  debts.filter (fun d => d.chat_id == chat_id)

/-- Python `InMemoryRepository.get_debts_by_debtor(debtor, chat_id)`. -/
def get_debts_by_debtor (debts : List Debt) (debtor : String) (chat_id : Int) : List Debt :=
  debts.filter (fun d => d.debtor == debtor && d.chat_id == chat_id)

/-- Python `InMemoryRepository.get_debts_by_creditor(creditor, chat_id)`. -/
def get_debts_by_creditor (debts : List Debt) (creditor : String) (chat_id : Int) : List Debt :=
  debts.filter (fun d => d.creditor == creditor && d.chat_id == chat_id)

/-- Key uniqueness: what a Python dict guarantees for its stored entries. -/
def keysUnique : List Debt → Bool
  | [] => true
  | e :: rest => rest.all (fun x => !sameKey e x) && keysUnique rest

/-! ### Order service (src/domain/services.py, `OrderService`) -/

/-- The three `ValidationError` messages `OrderService.create_order` can
raise, in source order. -/
inductive ValidationError where
  | amountNotPositive
  | amountExceedsLimit
  | tooFewParticipants
deriving DecidableEq

/-- The user-facing message attached to each `ValidationError`. -/
def ValidationError.message : ValidationError → String
  | .amountNotPositive => "Сумма должна быть положительной"
  | .amountExceedsLimit => "Сумма превышает допустимый лимит"
  | .tooFewParticipants => "Требуется минимум два участника"

/-- Python `if payer not in participants: participants = [payer] + participants`
— the payer is forced into the participant list, at the front, only when
absent. -/
def full_participants (payer : String) (participants : List String) : List String :=
  if payer ∈ participants then participants else payer :: participants

/-- Python `OrderService.create_order`: validate the amount, force the payer
into the participant list, validate the participant count, compute the
per-person share and build the order.  The generated `uuid` id is
modelled as `""`; `description or "без описания"` is Python string
truthiness. -/
def create_order (description : String) (amount : ℚ) (payer : String)
    (participants : List String) (now : Nat) : Except ValidationError Order :=
  if amount ≤ 0 then .error .amountNotPositive
  else if MAX_AMOUNT < amount then .error .amountExceedsLimit
  else if (full_participants payer participants).length < MIN_PARTICIPANTS then
    .error .tooFewParticipants
  else .ok
    { id := ""
      description := if description = "" then "без описания" else description
      amount := amount
      payer := payer
      participants := full_participants payer participants
      per_person_amount := calculate_per_person amount (full_participants payer participants).length
      created_at := now }

/-! ### Debt service (src/domain/services.py, `DebtService`) -/

/-- Python `", ".join(xs)`. -/
def joinComma : List String → String
  | [] => ""
  | [d] => d
  | d :: rest => d ++ ", " ++ joinComma rest

/-- Description merge performed when an order lands on an existing edge:
`descriptions = [existing, order] if existing else [order]` followed by
`", ".join(d for d in descriptions if d)` (empty fragments dropped). -/
def mergedDescription (existing_description order_description : String) : String :=
  joinComma ((if existing_description = "" then [order_description]
              else [existing_description, order_description]).filter (fun d => !(d == "")))

/-- The merged edge built when a debt `existing` is already present:
amount accumulates the share, descriptions join, `created_at` is kept
from the existing record, `updated_at` (dataclass default) is `now`.
`description`/`chat_id` keyword omissions give `""`-join and `0`. -/
def mergedDebt (o : Order) (participant : String) (existing : Debt) (now : Nat) : Debt :=
  { debtor := participant
    creditor := o.payer
    amount := existing.amount + o.per_person_amount
    description := mergedDescription existing.description o.description
    chat_id := 0
    created_at := existing.created_at
    updated_at := now }

/-- The fresh edge built when no debt exists yet: amount is the per-person share of the order,
description the one of the order, both timestamps `now`. -/
def freshDebt (o : Order) (participant : String) (now : Nat) : Debt :=
  { debtor := participant
    creditor := o.payer
    amount := o.per_person_amount
    description := o.description
    chat_id := 0
    created_at := now
    updated_at := now }

/-- Loop body of `DebtService.create_debts_from_order`, one participant at
a time; the services layer calls `get_debt`/`save_debt` without a chat
argument, so every access uses the repository default chat `0`. -/
def create_debts_loop (o : Order) (now : Nat) :
    List String → List Debt → List Debt × List Debt
  | [], s => (s, [])
  | q :: rest, s =>
      if q = o.payer then create_debts_loop o now rest s
      else
        let nd := match get_debt s q o.payer 0 with
          | some existing => mergedDebt o q existing now
          | none => freshDebt o q now
        let r := create_debts_loop o now rest (save_debt s nd)
        (r.1, nd :: r.2)

/-- Python `DebtService.create_debts_from_order`: upsert one edge
participant→payer per non-payer participant; returns the updated store
and the list of edges written. -/
def create_debts_from_order (o : Order) (s : List Debt) (now : Nat) :
    List Debt × List Debt :=
  create_debts_loop o now o.participants s

/-- Python `DebtService.get_debt`: the stored amount, `0` when no edge exists. -/
def debt_amount (s : List Debt) (debtor creditor : String) : ℚ :=
  match get_debt s debtor creditor 0 with
  | some d => d.amount
  | none => 0

/-- Python `DebtService.get_all_debts`: live (unsettled) edges of a chat plus
their total.  The chat argument is the repository parameter the callers
(`handle_all_debts`, the BDD steps) thread through. -/
def service_get_all_debts (s : List Debt) (chat_id : Int) : List Debt × ℚ :=
  let active := (get_all_debts s chat_id).filter (fun d => !d.is_settled)
  (active, (active.map (fun d => d.amount)).sum)

/-- Python `DebtService.get_debts_by_user`: live edges owed by a user plus
their total. -/
def service_get_debts_by_user (s : List Debt) (user : String) (chat_id : Int) :
    List Debt × ℚ :=
  let active := (get_debts_by_debtor s user chat_id).filter (fun d => !d.is_settled)
  (active, (active.map (fun d => d.amount)).sum)

/-- Python `DebtService.get_debts_to_user`: live edges owed to a user plus
their total. -/
def service_get_debts_to_user (s : List Debt) (user : String) (chat_id : Int) :
    List Debt × ℚ :=
  let active := (get_debts_by_creditor s user chat_id).filter (fun d => !d.is_settled)
  (active, (active.map (fun d => d.amount)).sum)

/-- Result dictionary of `DebtService.get_net_balance`. -/
structure NetBalance where
  net_balance : ℚ
  net_debtor : Option String
  net_creditor : Option String
deriving DecidableEq

/-- Python `DebtService.get_net_balance`: `net = debt(u1→u2) − debt(u2→u1)`,
classified by sign (`net` is let-bound in the source; it is written out
here). -/
def get_net_balance (s : List Debt) (user1 user2 : String) : NetBalance :=
  if 0 < debt_amount s user1 user2 - debt_amount s user2 user1 then
    { net_balance := debt_amount s user1 user2 - debt_amount s user2 user1
      net_debtor := some user1, net_creditor := some user2 }
  else if debt_amount s user1 user2 - debt_amount s user2 user1 < 0 then
    { net_balance := |debt_amount s user1 user2 - debt_amount s user2 user1|
      net_debtor := some user2, net_creditor := some user1 }
  else { net_balance := 0, net_debtor := none, net_creditor := none }

/-! ### Payment path (src/domain/services.py, `DebtService.reduce_debt`
and `PaymentService.record_payment`) -/

/-- The typed errors the payment path can raise. -/
inductive PaymentError where
  | validationError
  | debtNotFoundError
  | paymentExceedsDebtError
deriving DecidableEq

/-- Python `DebtService.reduce_debt`: look up the live edge, reject a payment
above the stored amount, subtract, then delete a settled edge or save
the reduced one.  Errors are raised before any write, so the returned
store equals the input store on every error path. -/
def reduce_debt (s : List Debt) (debtor creditor : String) (amount : ℚ) (now : Nat) :
    List Debt × Except PaymentError Debt :=
  match get_debt s debtor creditor 0 with
  | none => (s, .error .debtNotFoundError)
  | some debt =>
      if debt.is_settled then (s, .error .debtNotFoundError)
      else if debt.amount < amount then (s, .error .paymentExceedsDebtError)
      else
        let new_debt := debt.reduce amount now
        if new_debt.is_settled then (delete_debt s debtor creditor 0, .ok new_debt)
        else (save_debt s new_debt, .ok new_debt)

/-- The full ledger state the payment service touches: the debt store
and the append-only payment log. -/
structure LedgerState where
  debts : List Debt
  payments : List Payment
deriving DecidableEq

/-- Python `PaymentService.record_payment`: validate the amount, reduce the
debt (raising on failure), then append the audit `Payment` row with the
requested amount. -/
def record_payment (st : LedgerState) (debtor creditor : String) (amount : ℚ)
    (now : Nat) : LedgerState × Except PaymentError Payment :=
  if amount ≤ 0 then (st, .error .validationError)
  else
    match reduce_debt st.debts debtor creditor amount now with
    | (debts', .error e) => ({ st with debts := debts' }, .error e)
    | (debts', .ok _) =>
        let payment : Payment :=
          { id := "", debtor := debtor, creditor := creditor, amount := amount, created_at := now }
        ({ debts := debts', payments := st.payments ++ [payment] }, .ok payment)

/-! ### Netting engine (spec §4.5) -/

/-- Net direction of a consolidated entry. -/
inductive NetDirection where
  | i_owe
  | they_owe
  | settled
deriving DecidableEq

/-- One per-counterparty row of the consolidated view. -/
structure ConsolidatedEntry where
  counterparty : String
  i_owe : Option Debt
  they_owe : Option Debt
  net_direction : NetDirection
  net_amount : ℚ
deriving DecidableEq

/-- Amount of an optional edge, a missing edge counting as zero. -/
def optAmount : Option Debt → ℚ
  | some d => d.amount
  | none => 0

/-- The live edges of a chat. -/
def liveDebts (s : List Debt) (chat_id : Int) : List Debt :=
  (get_all_debts s chat_id).filter (fun d => !d.is_settled)

/-- The live edge from `u` to `v` in a chat, if any. -/
def liveEdge (s : List Debt) (chat_id : Int) (u v : String) : Option Debt :=
  (liveDebts s chat_id).find? (fun d => d.debtor == u && d.creditor == v)

/-- Modelled from the spec: the counterparties a user shares a live edge
with, in either direction (spec §4.5). -/
def counterpartiesOf (s : List Debt) (user : String) (chat_id : Int) : List String :=
  ((liveDebts s chat_id).filterMap (fun d =>
    if d.debtor == user then some d.creditor
    else if d.creditor == user then some d.debtor
    else none)).dedup

/-- Modelled from the spec: one per-counterparty row — gather both raw
edges, net them with a missing edge as zero, classify by sign
(spec §4.5). -/
def consolidatedEntry (s : List Debt) (user cp : String) (chat_id : Int) :
    ConsolidatedEntry :=
  if 0 < optAmount (liveEdge s chat_id user cp) - optAmount (liveEdge s chat_id cp user) then
    { counterparty := cp
      i_owe := liveEdge s chat_id user cp
      they_owe := liveEdge s chat_id cp user
      net_direction := .i_owe
      net_amount := optAmount (liveEdge s chat_id user cp) - optAmount (liveEdge s chat_id cp user) }
  else if optAmount (liveEdge s chat_id user cp) - optAmount (liveEdge s chat_id cp user) < 0 then
    { counterparty := cp
      i_owe := liveEdge s chat_id user cp
      they_owe := liveEdge s chat_id cp user
      net_direction := .they_owe
      net_amount := -(optAmount (liveEdge s chat_id user cp) - optAmount (liveEdge s chat_id cp user)) }
  else
    { counterparty := cp
      i_owe := liveEdge s chat_id user cp
      they_owe := liveEdge s chat_id cp user
      net_direction := .settled
      net_amount := 0 }

/-- Modelled from the spec: `DebtService.get_consolidated_debts` is
absent from src/src/domain/services.py — only its callers
(`handle_debts` in src/src/bot/handlers.py and the BDD steps) reference
it.  Per spec §4.5: for every counterparty with a live edge in either
direction, gather `i_owe` and `they_owe`, compute
`net = i_owe.amount − they_owe.amount` (missing edge = 0), classify the
direction by the sign of `net`, keep both raw breakdown edges, and
return the grand totals of the positive nets in each direction. -/
def get_consolidated_debts (s : List Debt) (user : String) (chat_id : Int) :
    List ConsolidatedEntry × ℚ × ℚ :=
  ((counterpartiesOf s user chat_id).map (fun cp => consolidatedEntry s user cp chat_id),
   (((counterpartiesOf s user chat_id).map (fun cp => consolidatedEntry s user cp chat_id)).filter
      (fun e => e.net_direction == .i_owe) |>.map (fun e => e.net_amount)).sum,
   (((counterpartiesOf s user chat_id).map (fun cp => consolidatedEntry s user cp chat_id)).filter
      (fun e => e.net_direction == .they_owe) |>.map (fun e => e.net_amount)).sum)

/-! ### Store lemmas -/

lemma matchesKey_iff (e : Debt) (x y : String) (ch : Int) :
    matchesKey e x y ch = true ↔ e.debtor = x ∧ e.creditor = y ∧ e.chat_id = ch := by
  simp [matchesKey, Bool.and_eq_true, beq_iff_eq, and_assoc]

lemma matchesKey_eq_false (e : Debt) (x y : String) (ch : Int)
    (h : ¬ (e.debtor = x ∧ e.creditor = y ∧ e.chat_id = ch)) :
    matchesKey e x y ch = false := by
  rcases hb : matchesKey e x y ch with _ | _
  · rfl
  · exact absurd ((matchesKey_iff e x y ch).mp hb) h

lemma get_debt_nil (x y : String) (ch : Int) : get_debt [] x y ch = none := rfl

lemma get_debt_cons_pos (e : Debt) (s : List Debt) (x y : String) (ch : Int)
    (h : matchesKey e x y ch = true) : get_debt (e :: s) x y ch = some e := by
  simp [get_debt, List.find?, h]

lemma get_debt_cons_neg (e : Debt) (s : List Debt) (x y : String) (ch : Int)
    (h : matchesKey e x y ch = false) : get_debt (e :: s) x y ch = get_debt s x y ch := by
  simp [get_debt, List.find?, h]

lemma get_debt_save_debt_self (s : List Debt) (d : Debt) :
    get_debt (save_debt s d) d.debtor d.creditor d.chat_id = some d := by
  induction s with
  | nil =>
      exact get_debt_cons_pos d [] _ _ _ ((matchesKey_iff d _ _ _).mpr ⟨rfl, rfl, rfl⟩)
  | cons e rest ih =>
      by_cases h : sameKey e d = true
      · rw [save_debt, if_pos h]
        exact get_debt_cons_pos d rest _ _ _ ((matchesKey_iff d _ _ _).mpr ⟨rfl, rfl, rfl⟩)
      · rw [save_debt, if_neg h]
        rw [get_debt_cons_neg e _ _ _ _ (by simpa [sameKey] using h)]
        exact ih

lemma sameKey_matches (e d : Debt) (hk : sameKey e d = true) (x y : String) (ch : Int) :
    matchesKey e x y ch = matchesKey d x y ch := by
  rcases (matchesKey_iff e d.debtor d.creditor d.chat_id).mp (by simpa [sameKey] using hk)
    with ⟨h1, h2, h3⟩
  simp [matchesKey, h1, h2, h3]

lemma get_debt_save_debt_ne (s : List Debt) (d : Debt) (x y : String) (ch : Int)
    (h : matchesKey d x y ch = false) :
    get_debt (save_debt s d) x y ch = get_debt s x y ch := by
  induction s with
  | nil =>
      rw [save_debt, get_debt_nil, get_debt_cons_neg d [] x y ch h, get_debt_nil]
  | cons e rest ih =>
      by_cases hk : sameKey e d = true
      · rw [save_debt, if_pos hk]
        have he : matchesKey e x y ch = false := by rw [sameKey_matches e d hk x y ch]; exact h
        rw [get_debt_cons_neg d rest x y ch h, get_debt_cons_neg e rest x y ch he]
      · rw [save_debt, if_neg hk]
        rcases hq : matchesKey e x y ch with _ | _
        · rw [get_debt_cons_neg e _ x y ch hq, get_debt_cons_neg e rest x y ch hq]
          exact ih
        · rw [get_debt_cons_pos e _ x y ch hq, get_debt_cons_pos e rest x y ch hq]

lemma get_debt_all_none (s : List Debt) (x y : String) (ch : Int)
    (h : ∀ e ∈ s, matchesKey e x y ch = false) : get_debt s x y ch = none := by
  induction s with
  | nil => rfl
  | cons e rest ih =>
      rw [get_debt_cons_neg e rest x y ch (h e (List.mem_cons_self e rest))]
      exact ih (fun f hf => h f (List.mem_cons_of_mem e hf))

lemma get_debt_delete_debt_ne (s : List Debt) (a b : String) (c : Int)
    (x y : String) (ch : Int) (h : ¬ (a = x ∧ b = y ∧ c = ch)) :
    get_debt (delete_debt s a b c) x y ch = get_debt s x y ch := by
  induction s with
  | nil => rfl
  | cons e rest ih =>
      by_cases hm : matchesKey e a b c = true
      · rw [delete_debt, if_pos hm]
        rcases (matchesKey_iff e a b c).mp hm with ⟨h1, h2, h3⟩
        have he : matchesKey e x y ch = false := by
          refine matchesKey_eq_false e x y ch (fun hc => ?_)
          exact h ⟨h1.symm.trans hc.1, h2.symm.trans hc.2.1, h3.symm.trans hc.2.2⟩
        rw [get_debt_cons_neg e rest x y ch he]
      · rw [delete_debt, if_neg (by simp [hm])]
        rcases hq : matchesKey e x y ch with _ | _
        · rw [get_debt_cons_neg e _ x y ch hq, get_debt_cons_neg e rest x y ch hq]
          exact ih
        · rw [get_debt_cons_pos e _ x y ch hq, get_debt_cons_pos e rest x y ch hq]

lemma keysUnique_cons (e : Debt) (rest : List Debt) (h : keysUnique (e :: rest) = true) :
    (∀ x ∈ rest, sameKey e x = false) ∧ keysUnique rest = true := by
  rw [keysUnique, Bool.and_eq_true, List.all_eq_true] at h
  refine ⟨fun x hx => ?_, h.2⟩
  have := h.1 x hx
  simpa using this

lemma get_debt_delete_debt_self (s : List Debt) (a b : String) (c : Int)
    (hu : keysUnique s = true) : get_debt (delete_debt s a b c) a b c = none := by
  induction s with
  | nil => rfl
  | cons e rest ih =>
      obtain ⟨hall, hrest⟩ := keysUnique_cons e rest hu
      by_cases hm : matchesKey e a b c = true
      · rw [delete_debt, if_pos hm]
        rcases (matchesKey_iff e a b c).mp hm with ⟨h1, h2, h3⟩
        refine get_debt_all_none rest a b c (fun f hf => ?_)
        refine matchesKey_eq_false f a b c (fun hc => ?_)
        have hsk : sameKey e f = true := by
          refine (matchesKey_iff e f.debtor f.creditor f.chat_id).mpr ?_
          exact ⟨h1.trans hc.1.symm, h2.trans hc.2.1.symm, h3.trans hc.2.2.symm⟩
        have := hall f hf
        rw [hsk] at this
        exact Bool.noConfusion this
      · rw [delete_debt, if_neg (by simp [hm])]
        rw [get_debt_cons_neg e _ a b c (by simp [hm])]
        exact ih hrest

lemma mem_save_debt (s : List Debt) (d x : Debt) (h : x ∈ save_debt s d) :
    x ∈ s ∨ x = d := by
  induction s with
  | nil =>
      rw [save_debt] at h
      rcases List.mem_singleton.mp h with rfl
      exact Or.inr rfl
  | cons e rest ih =>
      rw [save_debt] at h
      by_cases hk : sameKey e d = true
      · rw [if_pos hk] at h
        rcases List.mem_cons.mp h with rfl | hx
        · exact Or.inr rfl
        · exact Or.inl (List.mem_cons_of_mem e hx)
      · rw [if_neg hk] at h
        rcases List.mem_cons.mp h with rfl | hx
        · exact Or.inl (List.mem_cons_self x rest)
        · rcases ih hx with hs | rfl
          · exact Or.inl (List.mem_cons_of_mem e hs)
          · exact Or.inr rfl

lemma mem_delete_debt (s : List Debt) (a b : String) (c : Int) (x : Debt)
    (h : x ∈ delete_debt s a b c) : x ∈ s := by
  induction s with
  | nil => exact absurd h (List.not_mem_nil x)
  | cons e rest ih =>
      rw [delete_debt] at h
      by_cases hm : matchesKey e a b c = true
      · rw [if_pos hm] at h
        exact List.mem_cons_of_mem e h
      · rw [if_neg (by simp [hm])] at h
        rcases List.mem_cons.mp h with rfl | hx
        · exact List.mem_cons_self x rest
        · exact List.mem_cons_of_mem e (ih hx)

lemma mem_of_get_debt_eq_some (s : List Debt) (x y : String) (ch : Int) (d : Debt)
    (h : get_debt s x y ch = some d) : d ∈ s :=
  List.mem_of_find?_eq_some h

lemma fields_of_get_debt_eq_some (s : List Debt) (x y : String) (ch : Int) (d : Debt)
    (h : get_debt s x y ch = some d) : d.debtor = x ∧ d.creditor = y ∧ d.chat_id = ch := by
  induction s with
  | nil => exact Option.noConfusion h
  | cons e rest ih =>
      by_cases hm : matchesKey e x y ch = true
      · rw [get_debt_cons_pos e rest x y ch hm] at h
        obtain rfl : e = d := Option.some.inj h
        exact (matchesKey_iff e x y ch).mp hm
      · rw [get_debt_cons_neg e rest x y ch (by simp [hm])] at h
        exact ih h

/-! ### Debt-accumulator lemmas -/

/-- The edge written for one non-payer participant: the loop body of
`create_debts_from_order` as a function of the store it read. -/
def upsertDebt (o : Order) (q : String) (s : List Debt) (now : Nat) : Debt :=
  match get_debt s q o.payer 0 with
  | some existing => mergedDebt o q existing now
  | none => freshDebt o q now

lemma upsertDebt_debtor (o : Order) (q : String) (s : List Debt) (now : Nat) :
    (upsertDebt o q s now).debtor = q := by
  unfold upsertDebt
  cases hg : get_debt s q o.payer 0 <;> simp [mergedDebt, freshDebt]

lemma upsertDebt_creditor (o : Order) (q : String) (s : List Debt) (now : Nat) :
    (upsertDebt o q s now).creditor = o.payer := by
  unfold upsertDebt
  cases hg : get_debt s q o.payer 0 <;> simp [mergedDebt, freshDebt]

lemma upsertDebt_chat_id (o : Order) (q : String) (s : List Debt) (now : Nat) :
    (upsertDebt o q s now).chat_id = 0 := by
  unfold upsertDebt
  cases hg : get_debt s q o.payer 0 <;> simp [mergedDebt, freshDebt]

lemma create_debts_loop_cons_payer (o : Order) (now : Nat) (rest : List String)
    (s : List Debt) :
    create_debts_loop o now (o.payer :: rest) s = create_debts_loop o now rest s := by
  rw [create_debts_loop, if_pos rfl]

lemma create_debts_loop_cons_ne (o : Order) (now : Nat) (q : String) (rest : List String)
    (s : List Debt) (hq : q ≠ o.payer) :
    create_debts_loop o now (q :: rest) s =
      ((create_debts_loop o now rest (save_debt s (upsertDebt o q s now))).1,
       upsertDebt o q s now ::
         (create_debts_loop o now rest (save_debt s (upsertDebt o q s now))).2) := by
  rw [create_debts_loop, if_neg hq]
  rfl

lemma upsertDebt_congr (o : Order) (p : String) (s s' : List Debt) (now : Nat)
    (h : get_debt s p o.payer 0 = get_debt s' p o.payer 0) :
    upsertDebt o p s now = upsertDebt o p s' now := by
  unfold upsertDebt
  rw [h]

lemma create_debts_loop_frame (o : Order) (now : Nat) (x y : String) (ch : Int) :
    ∀ (l : List String) (s : List Debt),
      (∀ q ∈ l, q ≠ o.payer → ¬ (q = x ∧ o.payer = y ∧ (0 : Int) = ch)) →
      get_debt (create_debts_loop o now l s).1 x y ch = get_debt s x y ch := by
  intro l
  induction l with
  | nil => intro s _; rfl
  | cons q rest ih =>
      intro s h
      by_cases hq : q = o.payer
      · subst hq
        rw [create_debts_loop_cons_payer]
        exact ih s (fun q' hq' => h q' (List.mem_cons_of_mem _ hq'))
      · rw [create_debts_loop_cons_ne o now q rest s hq]
        dsimp only
        rw [ih (save_debt s (upsertDebt o q s now))
              (fun q' hq' => h q' (List.mem_cons_of_mem _ hq'))]
        apply get_debt_save_debt_ne
        apply matchesKey_eq_false
        intro hc
        refine h q (List.mem_cons_self q rest) hq ?_
        rw [upsertDebt_debtor] at hc
        rw [upsertDebt_creditor] at hc
        rw [upsertDebt_chat_id] at hc
        exact hc

lemma create_debts_loop_upsert (o : Order) (now : Nat) (p : String) (hne : p ≠ o.payer) :
    ∀ (l : List String) (s : List Debt), l.count p = 1 →
      get_debt (create_debts_loop o now l s).1 p o.payer 0 = some (upsertDebt o p s now) := by
  intro l
  induction l with
  | nil => intro s hcount; exact absurd hcount (by simp)
  | cons q rest ih =>
      intro s hcount
      by_cases hq : q = o.payer
      · subst hq
        rw [create_debts_loop_cons_payer]
        have hqp : ¬ (o.payer = p) := fun hx => hne hx.symm
        exact ih s (by simpa [List.count_cons, hqp] using hcount)
      · by_cases hqp : q = p
        · subst hqp
          have hrest : rest.count q = 0 := by simpa [List.count_cons] using hcount
          have hnotmem : q ∉ rest := List.count_eq_zero.mp hrest
          rw [create_debts_loop_cons_ne o now q rest s hq]
          dsimp only
          rw [create_debts_loop_frame o now q o.payer 0 rest _
                (fun q' hq' _ hc => hnotmem (hc.1 ▸ hq'))]
          have hself := get_debt_save_debt_self s (upsertDebt o q s now)
          rwa [upsertDebt_debtor, upsertDebt_creditor, upsertDebt_chat_id] at hself
        · have hqp' : ¬ (q = p) := hqp
          have hcount' : rest.count p = 1 := by simpa [List.count_cons, hqp'] using hcount
          rw [create_debts_loop_cons_ne o now q rest s hq]
          dsimp only
          rw [ih (save_debt s (upsertDebt o q s now)) hcount']
          have hfr : get_debt (save_debt s (upsertDebt o q s now)) p o.payer 0 =
              get_debt s p o.payer 0 := by
            apply get_debt_save_debt_ne
            apply matchesKey_eq_false
            intro hc
            rw [upsertDebt_debtor] at hc
            exact hqp hc.1
          exact congrArg some (upsertDebt_congr o p _ s now hfr)

/-! ### Positivity and payment-path lemmas -/

lemma upsertDebt_pos (o : Order) (q : String) (s : List Debt) (now : Nat)
    (hs : ∀ d ∈ s, 0 < d.amount) (hshare : 0 < o.per_person_amount) :
    0 < (upsertDebt o q s now).amount := by
  unfold upsertDebt
  cases hg : get_debt s q o.payer 0 with
  | none => simpa [freshDebt] using hshare
  | some e =>
      have he := hs e (mem_of_get_debt_eq_some s q o.payer 0 e hg)
      have : (0 : ℚ) < e.amount + o.per_person_amount := add_pos he hshare
      simpa [mergedDebt] using this

lemma save_debt_pos (s : List Debt) (d : Debt) (hs : ∀ x ∈ s, 0 < x.amount)
    (hd : 0 < d.amount) : ∀ x ∈ save_debt s d, 0 < x.amount := by
  intro x hx
  rcases mem_save_debt s d x hx with h | rfl
  · exact hs x h
  · exact hd

lemma create_debts_loop_pos (o : Order) (now : Nat)
    (hshare : 0 < o.per_person_amount) :
    ∀ (l : List String) (s : List Debt), (∀ d ∈ s, 0 < d.amount) →
      ∀ d ∈ (create_debts_loop o now l s).1, 0 < d.amount := by
  intro l
  induction l with
  | nil => intro s hs; exact hs
  | cons q rest ih =>
      intro s hs
      by_cases hq : q = o.payer
      · subst hq
        rw [create_debts_loop_cons_payer]
        exact ih s hs
      · rw [create_debts_loop_cons_ne o now q rest s hq]
        dsimp only
        exact ih (save_debt s (upsertDebt o q s now))
          (save_debt_pos s _ hs (upsertDebt_pos o q s now hs hshare))

lemma reduce_debt_state (s : List Debt) (debtor creditor : String) (a : ℚ) (now : Nat) :
    (reduce_debt s debtor creditor a now).1 = s ∨
    (reduce_debt s debtor creditor a now).1 = delete_debt s debtor creditor 0 ∨
    ∃ debt, get_debt s debtor creditor 0 = some debt ∧
      (debt.reduce a now).is_settled = false ∧
      (reduce_debt s debtor creditor a now).1 = save_debt s (debt.reduce a now) := by
  unfold reduce_debt
  cases hg : get_debt s debtor creditor 0 with
  | none => exact Or.inl rfl
  | some debt =>
      by_cases h1 : debt.is_settled = true
      · left; simp [h1]
      · by_cases h2 : debt.amount < a
        · left; simp [h1, h2]
        · by_cases h3 : (debt.reduce a now).is_settled = true
          · right; left; simp [h1, h2, h3]
          · right; right
            exact ⟨debt, rfl, Bool.eq_false_iff.mpr h3, by simp [h1, h2, h3]⟩

lemma reduce_debt_pos (s : List Debt) (debtor creditor : String) (a : ℚ) (now : Nat)
    (hs : ∀ d ∈ s, 0 < d.amount) :
    ∀ d ∈ (reduce_debt s debtor creditor a now).1, 0 < d.amount := by
  rcases reduce_debt_state s debtor creditor a now with h | h | ⟨debt, _, hset, h⟩
  · rw [h]; exact hs
  · rw [h]
    exact fun d hd => hs d (mem_delete_debt s debtor creditor 0 d hd)
  · rw [h]
    refine save_debt_pos s _ hs ?_
    have : ¬ ((debt.reduce a now).amount ≤ 0) := by
      intro hle
      rw [show (debt.reduce a now).is_settled = true from decide_eq_true hle] at hset
      exact Bool.noConfusion hset
    linarith [not_le.mp this]

lemma record_payment_debts (st : LedgerState) (debtor creditor : String) (a : ℚ)
    (now : Nat) :
    (record_payment st debtor creditor a now).1.debts =
      if a ≤ 0 then st.debts else (reduce_debt st.debts debtor creditor a now).1 := by
  unfold record_payment
  by_cases h : a ≤ 0
  · simp [h]
  · rw [if_neg h, if_neg h]
    cases hr : reduce_debt st.debts debtor creditor a now with
    | mk debts' res => cases res <;> simp

lemma reduce_full_payment_none (s : List Debt) (debtor creditor : String) (e : Debt)
    (now : Nat) (hu : keysUnique s = true)
    (hg : get_debt s debtor creditor 0 = some e) (hD : 0 < e.amount) :
    get_debt (reduce_debt s debtor creditor e.amount now).1 debtor creditor 0 = none := by
  have hns : e.is_settled = false := decide_eq_false (not_le.mpr hD)
  have hset : (e.reduce e.amount now).is_settled = true :=
    decide_eq_true (by simp [Debt.reduce])
  unfold reduce_debt
  rw [hg]
  simp only [hns, Bool.false_eq_true, if_false, lt_irrefl, if_neg (lt_irrefl e.amount), hset,
    if_true]
  exact get_debt_delete_debt_self s debtor creditor 0 hu

/-! ### Rounding lemmas -/

lemma roundHalfUp2_close (q : ℚ) (hq : 0 ≤ q) : |roundHalfUp2 q - q| ≤ 1 / 100 := by
  rw [roundHalfUp2, if_pos hq]
  have h1 : (⌊q * 100 + 1 / 2⌋ : ℚ) ≤ q * 100 + 1 / 2 := Int.floor_le _
  have h2 : q * 100 + 1 / 2 - 1 < (⌊q * 100 + 1 / 2⌋ : ℚ) := Int.sub_one_lt_floor _
  rw [abs_le]
  constructor <;> linarith

/-! ### Concrete fixtures used by witnesses and counterexamples -/

/-- The spec §8 scenario order: "пицца", 3000 rubles, payer ivan,
participants petya and masha (share 1000 each). -/
def sampleOrder : Order :=
  { id := ""
    description := "пицца"
    amount := 3000
    payer := "ivan"
    participants := ["ivan", "petya", "masha"]
    per_person_amount := 1000
    created_at := 0 }

/-- A chat-1 debt edge carrying a description. -/
def sampleDebt1 : Debt :=
  { debtor := "petya", creditor := "ivan", amount := 500,
    description := "пицца", chat_id := 1, created_at := 3, updated_at := 3 }

/-- A chat-0 (default-chat) debt edge. -/
def sampleDebt0 : Debt :=
  { debtor := "petya", creditor := "ivan", amount := 500,
    description := "пицца", chat_id := 0, created_at := 3, updated_at := 3 }

/-- A ledger whose only record is `sampleDebt0`. -/
def sampleState : LedgerState := { debts := [sampleDebt0], payments := [] }

/-! ### Claims -/

/-- Claim C10 (counterexample): the claim says `Debt.reduce` refreshes
only `updated_at`, every other field except `amount` staying identical;
but on a debt with description "пицца" in chat 1 the reduced record has
description `""` and chat scope `0` — the source `reduce` does not
forward those two fields, so they fall back to the dataclass defaults. -/
theorem claim_C10_counterexample :
    ¬ ((sampleDebt1.reduce 200 7).description = sampleDebt1.description) ∧
    ¬ ((sampleDebt1.reduce 200 7).chat_id = sampleDebt1.chat_id) := by
  constructor <;> decide

/-- Claim C10 (amended): `Debt.reduce` returns a new record whose
`debtor`, `creditor` and `created_at` are identical to those of the input,
whose `amount` equals `d.amount − a` and whose `updated_at` is
refreshed; but the `description` and chat scope are NOT preserved — they
are reset to the dataclass defaults `""` and `0` because `reduce` does
not forward them.  The original record is unchanged (the source builds a
fresh instance). -/
theorem claim_C10_amended (d : Debt) (a : ℚ) (now : Nat) :
    (d.reduce a now).debtor = d.debtor ∧
    (d.reduce a now).creditor = d.creditor ∧
    (d.reduce a now).created_at = d.created_at ∧
    (d.reduce a now).amount = d.amount - a ∧
    (d.reduce a now).updated_at = now ∧
    (d.reduce a now).description = "" ∧
    (d.reduce a now).chat_id = 0 :=
  ⟨rfl, rfl, rfl, rfl, rfl, rfl, rfl⟩

/-- Claim C3 (confirmed): for a positive amount within the ceiling and
at least two participants, each share is `round_half_up(A/N, 2)` and the
sum of the `N` equal shares differs from `A` by at most `N * 0.01`. -/
theorem claim_C3 (A : ℚ) (N : Nat) (hA : 0 < A) (_hmax : A ≤ MAX_AMOUNT) (hN : 2 ≤ N) :
    calculate_per_person A N = roundHalfUp2 (A / N) ∧
    |(N : ℚ) * calculate_per_person A N - A| ≤ (N : ℚ) * (1 / 100) := by
  refine ⟨rfl, ?_⟩
  have hN0 : (0 : ℚ) < (N : ℚ) := by
    have : (0 : ℕ) < N := lt_of_lt_of_le (by norm_num) hN
    exact_mod_cast this
  have hq : 0 ≤ A / (N : ℚ) := le_of_lt (div_pos hA hN0)
  have hclose := roundHalfUp2_close (A / (N : ℚ)) hq
  have key : (N : ℚ) * calculate_per_person A N - A =
      (calculate_per_person A N - A / (N : ℚ)) * (N : ℚ) := by
    field_simp
    ring
  rw [key, abs_mul, abs_of_pos hN0, mul_comm]
  exact mul_le_mul_of_nonneg_left hclose (le_of_lt hN0)

/-- Claim C3 (witness): the spec §8 scenario — 3000 split три ways gives
shares of 1000 with zero drift. -/
theorem claim_C3_witness :
    calculate_per_person 3000 3 = roundHalfUp2 (3000 / 3) ∧
    |(3 : ℚ) * calculate_per_person 3000 3 - 3000| ≤ (3 : ℚ) * (1 / 100) :=
  claim_C3 3000 3 (by norm_num) (by norm_num [MAX_AMOUNT]) (by norm_num)

/-- Claim C8 (confirmed): `get_net_balance` is symmetric — swapping the
two users yields the very same result record (same magnitude, same
debtor/creditor assignment) — and when the two directed amounts are
equal (including both missing) it reports a zero net with no debtor and
no creditor. -/
theorem claim_C8 (s : List Debt) (a b : String) :
    get_net_balance s a b = get_net_balance s b a ∧
    (debt_amount s a b = debt_amount s b a →
      get_net_balance s a b =
        { net_balance := 0, net_debtor := none, net_creditor := none }) := by
  constructor
  · unfold get_net_balance
    rcases lt_trichotomy (debt_amount s a b) (debt_amount s b a) with h | h | h
    · rw [if_neg (by linarith), if_pos (by linarith), if_pos (by linarith)]
      have habs : |debt_amount s a b - debt_amount s b a| =
          debt_amount s b a - debt_amount s a b := by
        rw [abs_of_neg (by linarith : debt_amount s a b - debt_amount s b a < 0)]
        ring
      rw [habs]
    · simp [h]
    · rw [if_pos (by linarith), if_neg (by linarith), if_pos (by linarith)]
      have habs : |debt_amount s b a - debt_amount s a b| =
          debt_amount s a b - debt_amount s b a := by
        rw [abs_of_neg (by linarith : debt_amount s b a - debt_amount s a b < 0)]
        ring
      rw [habs]
  · intro h
    unfold get_net_balance
    simp [h]

/-- Claim C8 (witness): with a single edge petya→ivan both orientations
agree, and on a balanced pair the report is zero/none/none. -/
theorem claim_C8_witness :
    get_net_balance [sampleDebt0] "petya" "ivan" =
      get_net_balance [sampleDebt0] "ivan" "petya" ∧
    (debt_amount [sampleDebt0] "masha" "ivan" = debt_amount [sampleDebt0] "ivan" "masha" →
      get_net_balance [sampleDebt0] "masha" "ivan" =
        { net_balance := 0, net_debtor := none, net_creditor := none }) :=
  ⟨(claim_C8 [sampleDebt0] "petya" "ivan").1, (claim_C8 [sampleDebt0] "masha" "ivan").2⟩

/-- Claim C7 (confirmed): `create_order` succeeds iff the amount is
positive, within the 1,000,000,000 ceiling, and the participant list
(after the payer is forced in) has at least two entries; the amount
checks run first, so a non-positive amount always reports
`amountNotPositive` and an over-limit amount always reports
`amountExceedsLimit` even when participants are also too few; on success
the payer is among the participants of the created order, prepended at the front exactly
once when it was absent from the input. -/
theorem claim_C7 (description : String) (amount : ℚ) (payer : String)
    (participants : List String) (now : Nat) :
    ((∃ o, create_order description amount payer participants now = .ok o) ↔
      (0 < amount ∧ amount ≤ MAX_AMOUNT ∧
        MIN_PARTICIPANTS ≤ (full_participants payer participants).length)) ∧
    (amount ≤ 0 →
      create_order description amount payer participants now = .error .amountNotPositive) ∧
    (MAX_AMOUNT < amount → 0 < amount →
      create_order description amount payer participants now = .error .amountExceedsLimit) ∧
    (∀ o, create_order description amount payer participants now = .ok o →
      o.participants = full_participants payer participants ∧
      payer ∈ o.participants ∧
      (payer ∉ participants →
        o.participants = payer :: participants ∧ o.participants.count payer = 1)) := by
  unfold create_order
  by_cases h1 : amount ≤ 0
  · rw [if_pos h1]
    refine ⟨?_, fun _ => rfl, fun _ hpos => absurd h1 (not_le.mpr hpos), fun o ho => ?_⟩
    · constructor
      · rintro ⟨o, ho⟩
        exact Except.noConfusion ho
      · rintro ⟨hpos, -, -⟩
        exact absurd h1 (not_le.mpr hpos)
    · exact Except.noConfusion ho
  · rw [if_neg h1]
    have hpos : 0 < amount := not_le.mp h1
    by_cases h2 : MAX_AMOUNT < amount
    · rw [if_pos h2]
      refine ⟨?_, fun hle => absurd hpos (not_lt.mpr hle), fun _ _ => rfl, fun o ho => ?_⟩
      · constructor
        · rintro ⟨o, ho⟩
          exact Except.noConfusion ho
        · rintro ⟨-, hle, -⟩
          exact absurd h2 (not_lt.mpr hle)
      · exact Except.noConfusion ho
    · rw [if_neg h2]
      have hle : amount ≤ MAX_AMOUNT := not_lt.mp h2
      by_cases h3 : (full_participants payer participants).length < MIN_PARTICIPANTS
      · rw [if_pos h3]
        refine ⟨?_, fun hc => absurd hpos (not_lt.mpr hc), fun hc _ => absurd hc h2,
          fun o ho => Except.noConfusion ho⟩
        constructor
        · rintro ⟨o, ho⟩
          exact Except.noConfusion ho
        · rintro ⟨-, -, hcnt⟩
          exact absurd h3 (not_lt.mpr hcnt)
      · rw [if_neg h3]
        have hcnt : MIN_PARTICIPANTS ≤ (full_participants payer participants).length :=
          not_lt.mp h3
        refine ⟨⟨fun _ => ⟨hpos, hle, hcnt⟩, fun _ => ⟨_, rfl⟩⟩,
          fun hc => absurd hpos (not_lt.mpr hc), fun hc _ => absurd hc h2, fun o ho => ?_⟩
        have ho' := Except.ok.inj ho
        subst ho'
        refine ⟨rfl, ?_, fun habs => ?_⟩
        · show payer ∈ full_participants payer participants
          unfold full_participants
          by_cases hmem : payer ∈ participants
          · rwa [if_pos hmem]
          · rw [if_neg hmem]
            exact List.mem_cons_self payer participants
        · constructor
          · show full_participants payer participants = payer :: participants
            unfold full_participants
            rw [if_neg habs]
          · show (full_participants payer participants).count payer = 1
            unfold full_participants
            rw [if_neg habs, List.count_cons_self, List.count_eq_zero.mpr habs]

/-- Claim C7 (witness): the spec scenario succeeds with ivan prepended
exactly once; a negative amount and an over-limit amount with a
too-short participant list report the amount errors. -/
theorem claim_C7_witness :
    (∃ o, create_order "пицца" 3000 "ivan" ["petya", "masha"] 0 = .ok o) ∧
    create_order "пицца" (-5) "ivan" ["petya", "masha"] 0 = .error .amountNotPositive ∧
    create_order "пицца" 2000000000 "ivan" [] 0 = .error .amountExceedsLimit ∧
    (∀ o, create_order "пицца" 3000 "ivan" ["petya", "masha"] 0 = .ok o →
      o.participants = "ivan" :: ["petya", "masha"] ∧ o.participants.count "ivan" = 1) := by
  refine ⟨?_, ?_, ?_, ?_⟩
  · exact (claim_C7 "пицца" 3000 "ivan" ["petya", "masha"] 0).1.mpr
      ⟨by norm_num, by norm_num [MAX_AMOUNT], by decide⟩
  · exact (claim_C7 "пицца" (-5) "ivan" ["petya", "masha"] 0).2.1 (by norm_num)
  · exact (claim_C7 "пицца" 2000000000 "ivan" [] 0).2.2.1 (by norm_num [MAX_AMOUNT])
      (by norm_num)
  · intro o ho
    have h := ((claim_C7 "пицца" 3000 "ivan" ["petya", "masha"] 0).2.2.2 o ho).2.2
      (by decide)
    exact h

/-- Claim C2 (confirmed): against a live edge of amount `D > 0` and a
positive payment `a`, `record_payment` fails with
`PaymentExceedsDebtError` exactly when `a > D`, and a rejected payment
leaves the whole ledger state unchanged — the edge still holds `D` and
no `Payment` row is appended. -/
theorem claim_C2 (st : LedgerState) (debtor creditor : String) (a : ℚ) (e : Debt)
    (now : Nat) (hg : get_debt st.debts debtor creditor 0 = some e)
    (hD : 0 < e.amount) (ha : 0 < a) :
    ((record_payment st debtor creditor a now).2 = .error .paymentExceedsDebtError ↔
      e.amount < a) ∧
    (e.amount < a → (record_payment st debtor creditor a now).1 = st) := by
  have hns : e.is_settled = false := decide_eq_false (not_le.mpr hD)
  have hna : ¬ (a ≤ 0) := not_le.mpr ha
  by_cases hlt : e.amount < a
  · have hres : record_payment st debtor creditor a now =
        (st, .error .paymentExceedsDebtError) := by
      unfold record_payment reduce_debt
      rw [if_neg hna, hg]
      simp [hns, hlt]
    rw [hres]
    exact ⟨⟨fun _ => hlt, fun _ => rfl⟩, fun _ => rfl⟩
  · have hres : (record_payment st debtor creditor a now).2 =
        .ok { id := "", debtor := debtor, creditor := creditor, amount := a,
              created_at := now } := by
      unfold record_payment reduce_debt
      rw [if_neg hna, hg]
      by_cases hsett : (e.reduce a now).is_settled = true
      · simp [hns, hlt, hsett]
      · simp [hns, hlt, hsett]
    refine ⟨⟨fun hc => ?_, fun hc => absurd hc hlt⟩, fun hc => absurd hc hlt⟩
    rw [hres] at hc
    exact Except.noConfusion hc

/-- Claim C2 (witness): the spec §8 scenario — against a 500-ruble edge a
600-ruble payment is rejected with `PaymentExceedsDebtError` and the
state is untouched. -/
theorem claim_C2_witness :
    ((record_payment sampleState "petya" "ivan" 600 7).2 =
        .error .paymentExceedsDebtError ↔ sampleDebt0.amount < 600) ∧
    (sampleDebt0.amount < 600 →
      (record_payment sampleState "petya" "ivan" 600 7).1 = sampleState) :=
  claim_C2 sampleState "petya" "ivan" 600 sampleDebt0 7 rfl (by norm_num [sampleDebt0])
    (by norm_num)

/-- The order that `create_order` actually builds for "пицца", amount
0.01, payer ivan, participants petya and masha: the validated amount is
positive, yet the half-up-rounded share 0.01/3 is exactly 0. -/
def zeroShareOrder : Order :=
  { id := ""
    description := "пицца"
    amount := 1 / 100
    payer := "ivan"
    participants := ["ivan", "petya", "masha"]
    per_person_amount := 0
    created_at := 0 }

/-- Claim C1 (counterexample): a validly created order (amount 0.01,
three participants — accepted by every `create_order` check) has
per-person share 0, and applying it stores debt edges with amount 0 ≤ 0;
`create_debts_from_order` has no positivity guard, so the claimed
invariant "no operation ever stores a debt with amount ≤ 0" fails. -/
theorem claim_C1_counterexample :
    create_order "пицца" (1 / 100) "ivan" ["petya", "masha"] 0 = .ok zeroShareOrder ∧
    ∃ d ∈ (create_debts_from_order zeroShareOrder [] 0).1, d.amount ≤ 0 := by
  have hfull : full_participants "ivan" ["petya", "masha"] = ["ivan", "petya", "masha"] := by
    unfold full_participants
    rw [if_neg (by decide)]
  have hshare : calculate_per_person (1 / 100) (3 : Nat) = 0 := by
    unfold calculate_per_person roundHalfUp2
    rw [if_pos (by norm_num)]
    norm_num
  constructor
  · unfold create_order
    rw [if_neg (by norm_num), if_neg (by norm_num [MAX_AMOUNT]), hfull,
      if_neg (by decide), show (["ivan", "petya", "masha"] : List String).length = 3 from rfl,
      hshare, if_neg (by decide : ¬ ("пицца" = ""))]
    rfl
  · refine ⟨freshDebt zeroShareOrder "petya" 0, ?_, ?_⟩
    · have hlist : (create_debts_from_order zeroShareOrder [] 0).1 =
          [freshDebt zeroShareOrder "petya" 0, freshDebt zeroShareOrder "masha" 0] := rfl
      rw [hlist]
      exact List.mem_cons_self _ _
    · show (freshDebt zeroShareOrder "petya" 0).amount ≤ 0
      norm_num [freshDebt, zeroShareOrder]

/-- Claim C1 (amended): the positivity invariant holds for every
operation except the unguarded zero-share corner of order application:
if every stored debt is positive then (a) `create_debts_from_order`
keeps every stored debt positive provided the per-person share of the order
is positive, (b) `record_payment` keeps every stored debt positive
unconditionally (`reduce_debt` deletes an edge instead of storing a
non-positive amount), and (c) paying a live edge down to exactly 0
deletes it, so the subsequent lookup is empty. -/
theorem claim_C1_amended (o : Order) (st : LedgerState) (now : Nat)
    (hkeys : keysUnique st.debts = true)
    (hpos : ∀ d ∈ st.debts, 0 < d.amount)
    (hshare : 0 < o.per_person_amount) :
    (∀ d ∈ (create_debts_from_order o st.debts now).1, 0 < d.amount) ∧
    (∀ (dr cr : String) (a : ℚ) (nw : Nat),
      ∀ d ∈ (record_payment st dr cr a nw).1.debts, 0 < d.amount) ∧
    (∀ (dr cr : String) (e : Debt) (nw : Nat),
      get_debt st.debts dr cr 0 = some e →
      get_debt (record_payment st dr cr e.amount nw).1.debts dr cr 0 = none) := by
  refine ⟨?_, ?_, ?_⟩
  · exact create_debts_loop_pos o now hshare o.participants st.debts hpos
  · intro dr cr a nw d hd
    rw [record_payment_debts] at hd
    by_cases hle : a ≤ 0
    · rw [if_pos hle] at hd
      exact hpos d hd
    · rw [if_neg hle] at hd
      exact reduce_debt_pos st.debts dr cr a nw hpos d hd
  · intro dr cr e nw hg
    have hD : 0 < e.amount := hpos e (mem_of_get_debt_eq_some st.debts dr cr 0 e hg)
    rw [record_payment_debts, if_neg (not_le.mpr hD)]
    exact reduce_full_payment_none st.debts dr cr e nw hkeys hg hD

/-- Claim C1 (witness): applying the spec scenario order (share 1000) to
a positive one-edge ledger keeps all amounts positive, and paying the
500-ruble edge in full removes it from the store. -/
theorem claim_C1_witness :
    (∀ d ∈ (create_debts_from_order sampleOrder sampleState.debts 0).1, 0 < d.amount) ∧
    (∀ d ∈ (record_payment sampleState "petya" "ivan" 200 7).1.debts, 0 < d.amount) ∧
    get_debt (record_payment sampleState "petya" "ivan" sampleDebt0.amount 7).1.debts
      "petya" "ivan" 0 = none := by
  have h := claim_C1_amended sampleOrder sampleState 0 (by decide) (by decide)
    (by norm_num [sampleOrder])
  exact ⟨h.1, h.2.1 "petya" "ivan" 200 7, h.2.2 "petya" "ivan" sampleDebt0 7 rfl⟩

/-- Claim C4 (confirmed): for a participant `p` other than the payer
(occurring once in the order), applying the order upserts the edge
p→payer — on an existing edge the amount becomes
`existing.amount + share`, the description is the comma-join of the two
descriptions with empty fragments dropped, and `created_at` is kept from
the existing record; on a missing edge a fresh record is created with
the share and description of the order; edges whose creditor is not the
payer, and in particular the payer→payer self-key, are untouched. -/
theorem claim_C4 (o : Order) (s : List Debt) (now : Nat) (p : String)
    (hcount : o.participants.count p = 1) (hne : p ≠ o.payer) :
    (∀ e, get_debt s p o.payer 0 = some e →
      get_debt (create_debts_from_order o s now).1 p o.payer 0 =
        some { debtor := p, creditor := o.payer,
               amount := e.amount + o.per_person_amount,
               description := mergedDescription e.description o.description,
               chat_id := 0, created_at := e.created_at, updated_at := now }) ∧
    (get_debt s p o.payer 0 = none →
      get_debt (create_debts_from_order o s now).1 p o.payer 0 =
        some { debtor := p, creditor := o.payer, amount := o.per_person_amount,
               description := o.description, chat_id := 0,
               created_at := now, updated_at := now }) ∧
    get_debt (create_debts_from_order o s now).1 o.payer o.payer 0 =
      get_debt s o.payer o.payer 0 ∧
    (∀ a b : String, a ≠ "" → b ≠ "" → mergedDescription a b = a ++ ", " ++ b) ∧
    (∀ b : String, mergedDescription "" b = b) ∧
    (∀ a : String, mergedDescription a "" = a) := by
  have hup := create_debts_loop_upsert o now p hne o.participants s hcount
  refine ⟨?_, ?_, ?_, ?_, ?_, ?_⟩
  · intro e he
    have hu : upsertDebt o p s now = mergedDebt o p e now := by
      unfold upsertDebt
      rw [he]
    rw [create_debts_from_order, hup, hu]
    rfl
  · intro he
    have hu : upsertDebt o p s now = freshDebt o p now := by
      unfold upsertDebt
      rw [he]
    rw [create_debts_from_order, hup, hu]
    rfl
  · exact create_debts_loop_frame o now o.payer o.payer 0 o.participants s
      (fun q _ hqne hc => hqne hc.1)
  · intro a b hA hB
    have ha' : (a == "") = false := beq_eq_false_iff_ne.mpr hA
    have hb' : (b == "") = false := beq_eq_false_iff_ne.mpr hB
    simp [mergedDescription, if_neg hA, ha', hb', joinComma]
  · intro b
    by_cases hb : b = ""
    · subst hb
      rfl
    · have hb' : (b == "") = false := beq_eq_false_iff_ne.mpr hb
      simp [mergedDescription, hb', joinComma]
  · intro a
    by_cases ha : a = ""
    · subst ha
      rfl
    · have ha' : (a == "") = false := beq_eq_false_iff_ne.mpr ha
      simp [mergedDescription, if_neg ha, ha', joinComma]

/-- Claim C4 (witness): merging the spec scenario order into a ledger
that already holds the petya→ivan edge of 500 yields 1500 with joined
descriptions and the original `created_at`; a fresh pair gets exactly
the share; the payer self-key stays empty. -/
theorem claim_C4_witness :
    get_debt (create_debts_from_order sampleOrder [sampleDebt0] 7).1 "petya" "ivan" 0 =
      some { debtor := "petya", creditor := "ivan",
             amount := sampleDebt0.amount + sampleOrder.per_person_amount,
             description := mergedDescription sampleDebt0.description sampleOrder.description,
             chat_id := 0, created_at := sampleDebt0.created_at, updated_at := 7 } ∧
    get_debt (create_debts_from_order sampleOrder [] 7).1 "masha" "ivan" 0 =
      some { debtor := "masha", creditor := "ivan",
             amount := sampleOrder.per_person_amount,
             description := sampleOrder.description, chat_id := 0,
             created_at := 7, updated_at := 7 } ∧
    get_debt (create_debts_from_order sampleOrder [] 7).1 "ivan" "ivan" 0 =
      get_debt [] "ivan" "ivan" 0 ∧
    mergedDescription "пицца" "суши" = "пицца" ++ ", " ++ "суши" := by
  refine ⟨?_, ?_, ?_, ?_⟩
  · exact (claim_C4 sampleOrder [sampleDebt0] 7 "petya" (by decide) (by decide)).1
      sampleDebt0 rfl
  · exact (claim_C4 sampleOrder [] 7 "masha" (by decide) (by decide)).2.1 rfl
  · exact (claim_C4 sampleOrder [] 7 "masha" (by decide) (by decide)).2.2.1
  · exact (claim_C4 sampleOrder [] 7 "masha" (by decide) (by decide)).2.2.2.1
      "пицца" "суши" (by decide) (by decide)

/-- Claim C9 (confirmed): applying the same order twice to a pair with
no pre-existing edge leaves a single edge holding exactly twice the
per-person share — debt application accumulates and is not
idempotent. -/
theorem claim_C9 (o : Order) (s : List Debt) (now now' : Nat) (p : String)
    (hcount : o.participants.count p = 1) (hne : p ≠ o.payer)
    (hnone : get_debt s p o.payer 0 = none) :
    ∃ e, get_debt (create_debts_from_order o
        (create_debts_from_order o s now).1 now').1 p o.payer 0 = some e ∧
      e.amount = 2 * o.per_person_amount := by
  have h1 := create_debts_loop_upsert o now p hne o.participants s hcount
  have hfirst : get_debt (create_debts_from_order o s now).1 p o.payer 0 =
      some (freshDebt o p now) := by
    have hu : upsertDebt o p s now = freshDebt o p now := by
      unfold upsertDebt
      rw [hnone]
    rw [create_debts_from_order, h1, hu]
  have h2 := create_debts_loop_upsert o now' p hne o.participants
    (create_debts_from_order o s now).1 hcount
  have hu2 : upsertDebt o p (create_debts_from_order o s now).1 now' =
      mergedDebt o p (freshDebt o p now) now' := by
    unfold upsertDebt
    rw [hfirst]
  refine ⟨mergedDebt o p (freshDebt o p now) now', ?_, ?_⟩
  · rw [create_debts_from_order, h2, hu2]
  · show (freshDebt o p now).amount + o.per_person_amount = 2 * o.per_person_amount
    show o.per_person_amount + o.per_person_amount = 2 * o.per_person_amount
    ring

/-- Claim C9 (witness): applying the spec scenario order twice to an
empty ledger leaves petya owing ivan exactly 2000 = 2 × 1000. -/
theorem claim_C9_witness :
    ∃ e, get_debt (create_debts_from_order sampleOrder
        (create_debts_from_order sampleOrder [] 0).1 1).1 "petya" "ivan" 0 = some e ∧
      e.amount = 2 * sampleOrder.per_person_amount :=
  claim_C9 sampleOrder [] 0 1 "petya" (by decide) (by decide) rfl

lemma get_debts_by_debtor_filter (s : List Debt) (u : String) (chat : Int) :
    get_debts_by_debtor s u chat =
      (s.filter (fun d => d.chat_id == chat)).filter (fun d => d.debtor == u) := by
  unfold get_debts_by_debtor
  rw [List.filter_filter]

lemma get_debts_by_creditor_filter (s : List Debt) (u : String) (chat : Int) :
    get_debts_by_creditor s u chat =
      (s.filter (fun d => d.chat_id == chat)).filter (fun d => d.creditor == u) := by
  unfold get_debts_by_creditor
  rw [List.filter_filter]

/-- Claim C5 (confirmed): chat scope is a hard partition for the query
layer — every chat-scoped debt query depends only on the debts stored
under that chat, so two states agreeing on the records of a chat answer all
queries of that chat identically; in particular a chat with no records
reports no debts no matter what other chats hold. -/
theorem claim_C5 (s t : List Debt) (chat : Int)
    (hagree : s.filter (fun d => d.chat_id == chat) =
      t.filter (fun d => d.chat_id == chat)) :
    service_get_all_debts s chat = service_get_all_debts t chat ∧
    (∀ u, service_get_debts_by_user s u chat = service_get_debts_by_user t u chat) ∧
    (∀ u, service_get_debts_to_user s u chat = service_get_debts_to_user t u chat) := by
  refine ⟨?_, ?_, ?_⟩
  · unfold service_get_all_debts get_all_debts
    rw [hagree]
  · intro u
    unfold service_get_debts_by_user
    rw [get_debts_by_debtor_filter, get_debts_by_debtor_filter, hagree]
  · intro u
    unfold service_get_debts_to_user
    rw [get_debts_by_creditor_filter, get_debts_by_creditor_filter, hagree]

/-- Claim C5 (witness): the spec §8 scenario — chat 1 holds
petya→ivan = 500, chat 2 holds nothing; every chat-2 query answers
exactly as over the empty ledger (and `service_get_all_debts [] 2`
is `([], 0)`). -/
theorem claim_C5_witness :
    service_get_all_debts [sampleDebt1] 2 = service_get_all_debts [] 2 ∧
    service_get_debts_by_user [sampleDebt1] "petya" 2 =
      service_get_debts_by_user [] "petya" 2 := by
  have h := claim_C5 [sampleDebt1] [] 2 rfl
  exact ⟨h.1, h.2.1 "petya"⟩

lemma consolidatedEntry_counterparty (s : List Debt) (user cp : String) (chat : Int) :
    (consolidatedEntry s user cp chat).counterparty = cp := by
  unfold consolidatedEntry
  split_ifs <;> rfl

lemma consolidatedEntry_i_owe (s : List Debt) (user cp : String) (chat : Int) :
    (consolidatedEntry s user cp chat).i_owe = liveEdge s chat user cp := by
  unfold consolidatedEntry
  split_ifs <;> rfl

lemma consolidatedEntry_they_owe (s : List Debt) (user cp : String) (chat : Int) :
    (consolidatedEntry s user cp chat).they_owe = liveEdge s chat cp user := by
  unfold consolidatedEntry
  split_ifs <;> rfl

lemma consolidatedEntry_classify (s : List Debt) (user cp : String) (chat : Int) :
    (optAmount (liveEdge s chat cp user) < optAmount (liveEdge s chat user cp) →
      (consolidatedEntry s user cp chat).net_direction = .i_owe ∧
      (consolidatedEntry s user cp chat).net_amount =
        optAmount (liveEdge s chat user cp) - optAmount (liveEdge s chat cp user)) ∧
    (optAmount (liveEdge s chat user cp) < optAmount (liveEdge s chat cp user) →
      (consolidatedEntry s user cp chat).net_direction = .they_owe ∧
      (consolidatedEntry s user cp chat).net_amount =
        optAmount (liveEdge s chat cp user) - optAmount (liveEdge s chat user cp)) ∧
    (optAmount (liveEdge s chat user cp) = optAmount (liveEdge s chat cp user) →
      (consolidatedEntry s user cp chat).net_direction = .settled ∧
      (consolidatedEntry s user cp chat).net_amount = 0) := by
  unfold consolidatedEntry
  refine ⟨fun h => ?_, fun h => ?_, fun h => ?_⟩
  · rw [if_pos (by linarith)]
    exact ⟨rfl, rfl⟩
  · rw [if_neg (by linarith), if_pos (by linarith)]
    refine ⟨rfl, ?_⟩
    show -(optAmount (liveEdge s chat user cp) - optAmount (liveEdge s chat cp user)) = _
    ring
  · rw [if_neg (by linarith), if_neg (by linarith)]
    exact ⟨rfl, rfl⟩

/-- Claim C6 (confirmed, spec-modelled): every row of the consolidated
view carries the raw `i_owe`/`they_owe` edges exactly as stored, nets
them with a missing edge as zero, and classifies the direction by the
sign of the net (`i_owe`/`they_owe` with the absolute net, `settled`
when equal); and every counterparty with a live edge in either direction
gets a row. -/
theorem claim_C6 (s : List Debt) (user : String) (chat : Int) :
    (∀ e ∈ (get_consolidated_debts s user chat).1,
      e.i_owe = liveEdge s chat user e.counterparty ∧
      e.they_owe = liveEdge s chat e.counterparty user ∧
      (optAmount (liveEdge s chat e.counterparty user) <
          optAmount (liveEdge s chat user e.counterparty) →
        e.net_direction = .i_owe ∧
        e.net_amount = optAmount (liveEdge s chat user e.counterparty) -
          optAmount (liveEdge s chat e.counterparty user)) ∧
      (optAmount (liveEdge s chat user e.counterparty) <
          optAmount (liveEdge s chat e.counterparty user) →
        e.net_direction = .they_owe ∧
        e.net_amount = optAmount (liveEdge s chat e.counterparty user) -
          optAmount (liveEdge s chat user e.counterparty)) ∧
      (optAmount (liveEdge s chat user e.counterparty) =
          optAmount (liveEdge s chat e.counterparty user) →
        e.net_direction = .settled ∧ e.net_amount = 0)) ∧
    (∀ d ∈ liveDebts s chat, (d.debtor = user ∨ d.creditor = user) →
      ∃ e ∈ (get_consolidated_debts s user chat).1,
        e.counterparty = if d.debtor = user then d.creditor else d.debtor) := by
  constructor
  · intro e he
    have he' : e ∈ (counterpartiesOf s user chat).map
        (fun cp => consolidatedEntry s user cp chat) := he
    obtain ⟨cp, _, rfl⟩ := List.mem_map.mp he'
    rw [consolidatedEntry_counterparty]
    exact ⟨consolidatedEntry_i_owe s user cp chat, consolidatedEntry_they_owe s user cp chat,
      (consolidatedEntry_classify s user cp chat).1,
      (consolidatedEntry_classify s user cp chat).2.1,
      (consolidatedEntry_classify s user cp chat).2.2⟩
  · intro d hd hside
    have hmemcp : (if d.debtor = user then d.creditor else d.debtor) ∈
        counterpartiesOf s user chat := by
      unfold counterpartiesOf
      rw [List.mem_dedup]
      refine List.mem_filterMap.mpr ⟨d, hd, ?_⟩
      by_cases h1 : d.debtor = user
      · rw [if_pos (by simpa using h1), if_pos h1]
      · have h2 : d.creditor = user := hside.resolve_left h1
        rw [if_neg (by simpa using h1), if_pos (by simpa using h2), if_neg h1]
    refine ⟨consolidatedEntry s user (if d.debtor = user then d.creditor else d.debtor) chat,
      ?_, consolidatedEntry_counterparty s user _ chat⟩
    show _ ∈ (counterpartiesOf s user chat).map (fun cp => consolidatedEntry s user cp chat)
    exact List.mem_map.mpr ⟨_, hmemcp, rfl⟩

/-- Claim C6 (witness): on a ledger holding only petya→ivan = 500, the
consolidated view for petya carries the raw edge, classifies ivan as
`i_owe` and nets 500 − 0. -/
theorem claim_C6_witness :
    (consolidatedEntry [sampleDebt0] "petya" "ivan" 0).i_owe =
      liveEdge [sampleDebt0] 0 "petya" "ivan" ∧
    (consolidatedEntry [sampleDebt0] "petya" "ivan" 0).net_direction = .i_owe ∧
    (consolidatedEntry [sampleDebt0] "petya" "ivan" 0).net_amount =
      optAmount (liveEdge [sampleDebt0] 0 "petya" "ivan") -
        optAmount (liveEdge [sampleDebt0] 0 "ivan" "petya") := by
  have hlist : (get_consolidated_debts [sampleDebt0] "petya" 0).1 =
      [consolidatedEntry [sampleDebt0] "petya" "ivan" 0] := rfl
  have hA : optAmount (liveEdge [sampleDebt0] 0 "petya" "ivan") = 500 := rfl
  have hB : optAmount (liveEdge [sampleDebt0] 0 "ivan" "petya") = 0 := rfl
  have h := (claim_C6 [sampleDebt0] "petya" 0).1
    (consolidatedEntry [sampleDebt0] "petya" "ivan" 0)
    (by rw [hlist]; exact List.mem_singleton.mpr rfl)
  rw [consolidatedEntry_counterparty] at h
  have hlt : optAmount (liveEdge [sampleDebt0] 0 "ivan" "petya") <
      optAmount (liveEdge [sampleDebt0] 0 "petya" "ivan") := by
    rw [hA, hB]
    norm_num
  exact ⟨h.1, (h.2.2.1 hlt).1, (h.2.2.1 hlt).2⟩

end Pizza
